import Mathlib

/-!
Verification of the Go-board rules engine and streaming dataset pipeline of
the TinyGo repository (src/CNN/datasets.py and src/CNN/datasets_sgf.py).

The Python board is a numpy int8 array indexed `board[y, x]` with entries
0 (empty), 1 (black), -1 (white).  We embed it as a total function
`Nat → Nat → Int`; only cells with both coordinates below `size` are
meaningful, and every operation of the source writes only such cells.
Colors are the single-character strings ("B") / "W" exactly as in the source
(`value = 1 if color == 'B' else -1`).
-/

/-- Board state: `GoGameState.__init__` builds a `size × size` zero array
(datasets.py lines 19-23).  The `size <= 0 or size > 25` constructor check is
embedded separately in `createState`. -/
structure GoGameState where
  size : Nat
  board : Nat → Nat → Int

/-- The constructor check of `GoGameState.__init__` (datasets.py lines 20-21):
`size <= 0 or size > 25` raises `ValueError`. -/
inductive MoveError where
  | invalidSize
  | occupiedPoint
  | suicideMove
  deriving DecidableEq, Repr

/-- `GoGameState(size)` with its validity check. -/
def createState (size : Nat) : Except MoveError GoGameState :=
  if size = 0 ∨ size > 25 then Except.error MoveError.invalidSize
  else Except.ok ⟨size, fun _ _ => 0⟩

/-- The empty board of a given size, as produced by `GoGameState(size)` for a
valid size (used by the replay pipelines, datasets.py line 155). -/
def initState (size : Nat) : GoGameState :=
  ⟨size, fun _ _ => 0⟩

/-- A single assignment `board[y, x] = v`. -/
def setCell (b : Nat → Nat → Int) (x y : Nat) (v : Int) : Nat → Nat → Int :=
  fun yy xx => if yy = y ∧ xx = x then v else b yy xx

/-- `GoGameState._neighbors` (datasets.py lines 76-84): the 4-adjacent
in-range cells of `(x, y)`, in the source's yield order. -/
def neighbors (s : GoGameState) (x y : Nat) : List (Nat × Nat) :=
  (if 0 < x then [(x - 1, y)] else []) ++
  (if x + 1 < s.size then [(x + 1, y)] else []) ++
  (if 0 < y then [(x, y - 1)] else []) ++
  (if y + 1 < s.size then [(x, y + 1)] else [])

/-- One neighbor step of the flood fill of `GoGameState._collect_group`
(datasets.py lines 95-101).  The accumulator is `(stack, visited, liberties)`;
`liberties` is the Python set, kept as a duplicate-free list. -/
def floodStep (s : GoGameState) (value : Int)
    (acc : List (Nat × Nat) × List (Nat × Nat) × List (Nat × Nat)) (n : Nat × Nat) :
    List (Nat × Nat) × List (Nat × Nat) × List (Nat × Nat) :=
  let v := s.board n.2 n.1
  if v = 0 then
    (acc.1, acc.2.1, if n ∈ acc.2.2 then acc.2.2 else n :: acc.2.2)
  else if v = value ∧ n ∉ acc.2.1 then
    (n :: acc.1, n :: acc.2.1, acc.2.2)
  else acc

/-- The `while stack:` loop of `GoGameState._collect_group` (datasets.py lines
92-101), with explicit fuel.  Each loop iteration pops one stack entry, and the
number of iterations is bounded by one plus the number of cells ever pushed,
which is at most `size * size` since pushed cells are in range, enter `visited`
when pushed, and are never pushed twice; so fuel `size * size + 1` (supplied by
`collectGroup`) is never exhausted. -/
def collectGroupAux (s : GoGameState) (value : Int) :
    Nat → List (Nat × Nat) → List (Nat × Nat) → List (Nat × Nat) → List (Nat × Nat) →
    List (Nat × Nat) × List (Nat × Nat)
  | 0, _, _, group, libs => (group, libs)
  | _ + 1, [], _, group, libs => (group, libs)
  | fuel + 1, c :: rest, visited, group, libs =>
    let st := (neighbors s c.1 c.2).foldl (floodStep s value) (rest, visited, libs)
    collectGroupAux s value fuel st.1 st.2.1 (group ++ [c]) st.2.2

/-- `GoGameState._collect_group(x, y)` (datasets.py lines 86-102): the maximal
same-valued 4-connected group containing `(x, y)` together with its liberty
count `len(liberties)`. -/
def collectGroup (s : GoGameState) (x y : Nat) : List (Nat × Nat) × Nat :=
  let value := s.board y x
  let r := collectGroupAux s value (s.size * s.size + 1) [(x, y)] [(x, y)] [] []
  (r.1, r.2.length)

/-- `value = 1 if color == 'B' else -1` (datasets.py line 42). -/
def moveValue (color : String) : Int :=
  if color = "B" then 1 else -1

/-- The board right after `self.board[y, x] = value` (datasets.py line 43). -/
def placedState (s : GoGameState) (color : String) (x y : Nat) : GoGameState :=
  ⟨s.size, setCell s.board x y (moveValue color)⟩

/-- One iteration of the capture-collection loop of `play_move` (datasets.py
lines 46-50): a neighbor of the opposite color whose group has zero liberties
appends that group. -/
def capStep (s1 : GoGameState) (value : Int)
    (acc : List (List (Nat × Nat))) (n : Nat × Nat) : List (List (Nat × Nat)) :=
  if s1.board n.2 n.1 = -value then
    let gl := collectGroup s1 n.1 n.2
    if gl.2 = 0 then acc ++ [gl.1] else acc
  else acc

/-- The `captured_groups` list of `play_move` (datasets.py lines 45-50): for
every 4-neighbor of the target holding the opposite color, collect its group
on the post-placement board; groups with zero liberties are appended.  A group
adjacent to the target at two neighbors is appended twice, as in the source. -/
def capturedGroupsOf (s : GoGameState) (color : String) (x y : Nat) :
    List (List (Nat × Nat)) :=
  (neighbors s x y).foldl (capStep (placedState s color x y) (moveValue color)) []

/-- The `captured_stones` list built while removing captures (datasets.py lines
53-57): the concatenation of the captured groups, duplicates preserved. -/
def capturedStonesOf (s : GoGameState) (color : String) (x y : Nat) :
    List (Nat × Nat) :=
  (capturedGroupsOf s color x y).flatten

/-- The board after `self.board[gy, gx] = 0` over all captured stones
(datasets.py lines 54-57), applied to the post-placement board. -/
def afterCaptures (s : GoGameState) (color : String) (x y : Nat) : GoGameState :=
  ⟨s.size,
   (capturedStonesOf s color x y).foldl
     (fun b c => setCell b c.1 c.2 0) (placedState s color x y).board⟩

/-- `GoGameState.play_move(color, coord)` (datasets.py lines 38-68).  The
Python method mutates `self.board` and either returns `captured_stones` or
raises; we return the board as it stands when the call ends together with the
result, so both failure paths expose the final board for inspection.
Order of steps as in the source: occupied check, placement, capture collection,
capture removal, own-group liberty recount, suicide revert. -/
def playMove (s : GoGameState) (color : String) (coord : Nat × Nat) :
    GoGameState × Except MoveError (List (Nat × Nat)) :=
  let x := coord.1
  let y := coord.2
  if s.board y x ≠ 0 then (s, Except.error MoveError.occupiedPoint)
  else
    let s2 := afterCaptures s color x y
    if (collectGroup s2 x y).2 = 0 then
      let b3 := (capturedStonesOf s color x y).foldl
        (fun b c => setCell b c.1 c.2 (-(moveValue color))) s2.board
      (⟨s.size, setCell b3 x y 0⟩, Except.error MoveError.suicideMove)
    else (s2, Except.ok (capturedStonesOf s color x y))

/-- One iteration of the loops of `apply_setup` / `apply_empty` (datasets.py
lines 27-30 and 33-36): a 1-indexed coordinate inside `[1, size]` in both
components is converted to 0-indexed and force-set to `v`; any other
coordinate is silently ignored. -/
def forceSet (sz : Nat) (v : Int) (b : Nat → Nat → Int) (c : Int × Int) :
    Nat → Nat → Int :=
  if 1 ≤ c.1 ∧ c.1 ≤ (sz : Int) ∧ 1 ≤ c.2 ∧ c.2 ≤ (sz : Int) then
    setCell b (c.1 - 1).toNat (c.2 - 1).toNat v
  else b

/-- `GoGameState.apply_setup(color, coords)` (datasets.py lines 25-30):
force-set the listed 1-indexed cells to the color's value, silently skipping
any coordinate outside `[1, size]` in either component. -/
def applySetup (s : GoGameState) (color : String) (coords : List (Int × Int)) :
    GoGameState :=
  ⟨s.size, coords.foldl (forceSet s.size (moveValue color)) s.board⟩

/-- `GoGameState.apply_empty(coords)` (datasets.py lines 32-36): force-clear
the listed 1-indexed cells, with the same silent range filter. -/
def applyEmpty (s : GoGameState) (coords : List (Int × Int)) : GoGameState :=
  ⟨s.size, coords.foldl (forceSet s.size 0) s.board⟩

/-- `GoGameState.make_features(to_play)` (datasets.py lines 70-74): the three
stacked planes.  Every produced float is exactly 0.0 or 1.0, so the planes are
embedded with integer entries. -/
def makeFeatures (s : GoGameState) (toPlay : String) : List (List (List Int)) :=
  [(List.range s.size).map (fun yy =>
     (List.range s.size).map (fun xx => if s.board yy xx = 1 then (1 : Int) else 0)),
   (List.range s.size).map (fun yy =>
     (List.range s.size).map (fun xx => if s.board yy xx = -1 then (1 : Int) else 0)),
   (List.range s.size).map (fun _ =>
     (List.range s.size).map (fun _ => if toPlay = "B" then (1 : Int) else 0))]

/-- Number of occupied cells of the board (used by the spec's stone-count
invariant, §8). -/
def stoneCount (s : GoGameState) : Nat :=
  Finset.card
    (Finset.filter (fun p : Nat × Nat => s.board p.2 p.1 ≠ 0)
      (Finset.range s.size ×ˢ Finset.range s.size))

example : (playMove (initState 1) "B" (0, 0)).2 = Except.error MoveError.suicideMove := rfl

example : (playMove (initState 2) "B" (0, 0)).2 = Except.ok [] := rfl

/-!
The streaming pipeline.  `DatasetConfig` (datasets.py lines 110-115 and
datasets_sgf.py lines 18-23) carries the board size, `val_ratio` and the
optional `limit_games` cap.  `val_ratio` is a Python float used only through
`int(val_ratio * 1000)` and sign tests; it is embedded as a rational, with
truncation equal to `Rat.floor` on the positive branch where it is used.
-/

/-- Configuration shared by both dataset classes. -/
structure DatasetConfig where
  boardSize : Nat
  valRatio : ℚ
  limitGames : Option Nat

/-- `_selected(game_index)` (datasets.py lines 128-133, identical in
datasets_sgf.py lines 36-41). -/
def selected (valRatio : ℚ) (mode : String) (gameIndex : Nat) : Bool :=
  if valRatio ≤ 0 then decide (mode = "train")
  else
    let bucket : ℤ := (gameIndex % 1000 : Nat)
    let threshold : ℤ := Rat.floor (valRatio * 1000)
    if mode = "val" then decide (bucket < threshold) else decide (bucket ≥ threshold)

/-- The worker-sharding test `game_index % num_workers != worker_id → continue`
(datasets.py line 144, datasets_sgf.py line 50), stated positively. -/
def ownsGame (numWorkers workerId idx : Nat) : Bool :=
  idx % numWorkers == workerId

/-- The `limit_games is not None and games_seen >= limit_games` test
(datasets.py line 146, datasets_sgf.py line 52). -/
def limitHit (limitGames : Option Nat) (gamesSeen : Nat) : Bool :=
  match limitGames with
  | none => false
  | some n => gamesSeen ≥ n

/-- One element of a compact game array: either it fails the well-formedness
checks of `_game_to_samples` (not a single-key dict, or its value not a
2-element list) and is skipped, or it is a single-key object mapping a color
to 1-indexed integer coordinates. -/
inductive MoveEntry where
  | malformed
  | entry (color : String) (x y : Int)
  deriving DecidableEq

/-- One parsed line of a compact `.data` file: after `line.strip()` the line is
empty, fails `json.loads`, or is a JSON array of move entries. -/
inductive JsonLine where
  | blank
  | bad
  | game (moves : List MoveEntry)

/-- A training sample: the three stacked feature planes plus the flattened
action index (an integer tensor in the source). -/
def Sample : Type := List (List (List Int)) × Int

instance : DecidableEq Sample := by
  unfold Sample
  infer_instance

/-- `GoMoveDataset._game_to_samples` (datasets.py lines 162-202): per move,
skip malformed entries and out-of-range coordinates, emit the sample computed
from the pre-move state, then attempt `play_move`; on failure stop the game
(the sample of the failing move has already been emitted). -/
def gameToSamples (boardSize : Nat) (s : GoGameState) : List MoveEntry → List Sample
  | [] => []
  | MoveEntry.malformed :: rest => gameToSamples boardSize s rest
  | MoveEntry.entry color x y :: rest =>
    if 1 ≤ x ∧ x ≤ (boardSize : Int) ∧ 1 ≤ y ∧ y ≤ (boardSize : Int) then
      let sample : Sample := (makeFeatures s color, (y - 1) * boardSize + (x - 1))
      match playMove s color ((x - 1).toNat, (y - 1).toNat) with
      | (s', Except.ok _) => sample :: gameToSamples boardSize s' rest
      | (_, Except.error _) => [sample]
    else gameToSamples boardSize s rest

/-- How a worker's compact iteration ends: normally, by the `limit_games`
early `return`, or by an exception escaping the generator. -/
inductive ExitKind where
  | normal
  | limitStop
  | raised
  deriving DecidableEq

/-- Observable outcome of a compact worker: the yielded samples, the final
`games_seen` counter, the number of owned games that got past the
`limit_games` check (games the worker examined), and how iteration ended. -/
structure CompactOut where
  samples : List Sample
  seen : Nat
  examined : Nat
  exit : ExitKind

/-- The inner `for game_index, line in enumerate(fh)` loop of
`GoMoveDataset.__iter__` (datasets.py lines 143-160).  `gameIndex` is the
line number inside the current file (`enumerate(fh)` restarts at 0 for each
file); `seen` is the `games_seen` counter carried across files.  A line that
fails `json.loads` raises `json.JSONDecodeError`, which escapes the generator
because the call sits outside the `try`/`except ValueError` of lines 156-160;
this is the `ExitKind.raised` outcome.  `_game_to_samples` itself raises no
`ValueError` on the move shapes modelled here (`play_move` failures are caught
inside it), so the `except` around it never fires. -/
def compactFileLoop (cfg : DatasetConfig) (mode : String) (workerId numWorkers : Nat) :
    List JsonLine → Nat → Nat → CompactOut
  | [], _, seen => ⟨[], seen, 0, ExitKind.normal⟩
  | line :: rest, gameIndex, seen =>
    if ownsGame numWorkers workerId gameIndex then
      if limitHit cfg.limitGames seen then ⟨[], seen, 0, ExitKind.limitStop⟩
      else
        let seen1 := seen + 1
        if selected cfg.valRatio mode gameIndex then
          match line with
          | JsonLine.blank =>
            let r := compactFileLoop cfg mode workerId numWorkers rest (gameIndex + 1) seen1
            ⟨r.samples, r.seen, r.examined + 1, r.exit⟩
          | JsonLine.bad => ⟨[], seen1, 1, ExitKind.raised⟩
          | JsonLine.game moves =>
            let samples := gameToSamples cfg.boardSize (initState cfg.boardSize) moves
            let r := compactFileLoop cfg mode workerId numWorkers rest (gameIndex + 1) seen1
            ⟨samples ++ r.samples, r.seen, r.examined + 1, r.exit⟩
        else
          let r := compactFileLoop cfg mode workerId numWorkers rest (gameIndex + 1) seen1
          ⟨r.samples, r.seen, r.examined + 1, r.exit⟩
    else compactFileLoop cfg mode workerId numWorkers rest (gameIndex + 1) seen

/-- The outer `for path in self.cfg.data_files` loop of `GoMoveDataset.__iter__`
(datasets.py lines 141-160): files are visited in list order, the per-file line
index restarts at 0, `games_seen` is carried over, and a `limit_games` return
or an escaped exception ends the whole generator. -/
def compactRun (cfg : DatasetConfig) (mode : String) (workerId numWorkers : Nat) :
    List (List JsonLine) → Nat → CompactOut
  | [], seen => ⟨[], seen, 0, ExitKind.normal⟩
  | file :: rest, seen =>
    let r := compactFileLoop cfg mode workerId numWorkers file 0 seen
    match r.exit with
    | ExitKind.normal =>
      let r2 := compactRun cfg mode workerId numWorkers rest r.seen
      ⟨r.samples ++ r2.samples, r2.seen, r.examined + r2.examined, r2.exit⟩
    | e => ⟨r.samples, r.seen, r.examined, e⟩

/-- A full compact-dataset iteration of one worker, starting with
`games_seen = 0` (datasets.py line 140). -/
def compactDataset (cfg : DatasetConfig) (mode : String) (workerId numWorkers : Nat)
    (files : List (List JsonLine)) : CompactOut :=
  compactRun cfg mode workerId numWorkers files 0

/-- One node of an SGF main sequence as `node.get_move()` exposes it: a pass
(`move[0] is None`, also the shape of the root node) or a colored move with
0-indexed coordinates. -/
inductive SgfNode where
  | pass
  | move (color : String) (x y : Int)
  deriving DecidableEq

/-- One SGF file: either reading/parsing raises (caught by the per-file
`except Exception`), or it parses to a declared board size plus the main
sequence of nodes (root node first). -/
inductive SgfFile where
  | bad
  | game (size : Nat) (mainSeq : List SgfNode)

/-- Observable outcome of an SGF worker (no exception can escape: the whole
per-file body is wrapped in `try`/`except Exception`). -/
structure SgfOut where
  samples : List Sample
  seen : Nat
  examined : Nat

/-- The per-game replay loop of `SgfGoMoveDataset.__iter__` (datasets_sgf.py
lines 72-95): iterate the main sequence with the root node skipped, skip
passes and out-of-range moves, emit the sample from the pre-move state, then
attempt `play_move` and stop the game on failure. -/
def sgfGameToSamples (boardSize : Nat) (s : GoGameState) : List SgfNode → List Sample
  | [] => []
  | SgfNode.pass :: rest => sgfGameToSamples boardSize s rest
  | SgfNode.move color x y :: rest =>
    if 0 ≤ x ∧ x < (boardSize : Int) ∧ 0 ≤ y ∧ y < (boardSize : Int) then
      let sample : Sample := (makeFeatures s color, y * boardSize + x)
      match playMove s color (x.toNat, y.toNat) with
      | (s', Except.ok _) => sample :: sgfGameToSamples boardSize s' rest
      | (_, Except.error _) => [sample]
    else sgfGameToSamples boardSize s rest

/-- `SgfGoMoveDataset.__iter__` (datasets_sgf.py lines 43-101): one loop over
`enumerate(self.cfg.data_files)`, sharded by file index.  `games_seen` is
incremented only at line 97, after the file was selected, parsed, passed the
board-size gate, and its replay loop finished; unreadable files and size
mismatches `continue` without incrementing.  `examined` counts owned files
that got past the `limit_games` check. -/
def sgfRun (cfg : DatasetConfig) (mode : String) (workerId numWorkers : Nat) :
    List SgfFile → Nat → Nat → SgfOut
  | [], _, seen => ⟨[], seen, 0⟩
  | f :: rest, fileIndex, seen =>
    if ownsGame numWorkers workerId fileIndex then
      if limitHit cfg.limitGames seen then ⟨[], seen, 0⟩
      else
        if selected cfg.valRatio mode fileIndex then
          match f with
          | SgfFile.bad =>
            let r := sgfRun cfg mode workerId numWorkers rest (fileIndex + 1) seen
            ⟨r.samples, r.seen, r.examined + 1⟩
          | SgfFile.game gsize mainSeq =>
            if gsize = cfg.boardSize then
              let samples :=
                sgfGameToSamples cfg.boardSize (initState cfg.boardSize) (mainSeq.drop 1)
              let r := sgfRun cfg mode workerId numWorkers rest (fileIndex + 1) (seen + 1)
              ⟨samples ++ r.samples, r.seen, r.examined + 1⟩
            else
              let r := sgfRun cfg mode workerId numWorkers rest (fileIndex + 1) seen
              ⟨r.samples, r.seen, r.examined + 1⟩
        else
          let r := sgfRun cfg mode workerId numWorkers rest (fileIndex + 1) seen
          ⟨r.samples, r.seen, r.examined + 1⟩
    else sgfRun cfg mode workerId numWorkers rest (fileIndex + 1) seen

/-- A full SGF-dataset iteration of one worker, starting at file index 0 with
`games_seen = 0` (datasets_sgf.py lines 48-49). -/
def sgfDataset (cfg : DatasetConfig) (mode : String) (workerId numWorkers : Nat)
    (files : List SgfFile) : SgfOut :=
  sgfRun cfg mode workerId numWorkers files 0 0

/-!
Helper lemmas about the embedded operations.
-/

lemma setCell_apply (b : Nat → Nat → Int) (x y : Nat) (v : Int) (yy xx : Nat) :
    setCell b x y v yy xx = if yy = y ∧ xx = x then v else b yy xx := rfl

/-- Pointwise value of a fold of single-cell writes of the same value. -/
lemma foldl_setCell (v : Int) :
    ∀ (L : List (Nat × Nat)) (b : Nat → Nat → Int) (yy xx : Nat),
      (L.foldl (fun acc c => setCell acc c.1 c.2 v) b) yy xx
        = if (xx, yy) ∈ L then v else b yy xx
  | [], b, yy, xx => by simp
  | a :: t, b, yy, xx => by
    rw [List.foldl_cons, foldl_setCell v t]
    rcases a with ⟨ax, ay⟩
    by_cases hmem : (xx, yy) ∈ t
    · simp [hmem]
    · by_cases hc : yy = ay ∧ xx = ax
      · have hpq : (xx, yy) = (ax, ay) := by rw [hc.1, hc.2]
        simp [hmem, hpq, setCell_apply, hc]
      · have hpq : (xx, yy) ≠ (ax, ay) := by
          intro hcontra
          injection hcontra with h1 h2
          exact hc ⟨h2, h1⟩
        simp [hmem, hpq, setCell_apply, hc]

lemma floodStep_stack_cases (s : GoGameState) (value : Int)
    (acc : List (Nat × Nat) × List (Nat × Nat) × List (Nat × Nat)) (n : Nat × Nat) :
    (floodStep s value acc n).1 = acc.1 ∨
    ((floodStep s value acc n).1 = n :: acc.1 ∧ s.board n.2 n.1 = value) := by
  simp only [floodStep]
  by_cases h0 : s.board n.2 n.1 = 0
  · left; rw [if_pos h0]
  · by_cases hv : s.board n.2 n.1 = value ∧ n ∉ acc.2.1
    · right; refine ⟨?_, hv.1⟩; rw [if_neg h0, if_pos hv]
    · left; rw [if_neg h0, if_neg hv]

lemma floodStep_libs_cases (s : GoGameState) (value : Int)
    (acc : List (Nat × Nat) × List (Nat × Nat) × List (Nat × Nat)) (n : Nat × Nat) :
    (floodStep s value acc n).2.2 = acc.2.2 ∨
    (floodStep s value acc n).2.2 = n :: acc.2.2 := by
  simp only [floodStep]
  by_cases h0 : s.board n.2 n.1 = 0
  · by_cases hn : n ∈ acc.2.2
    · left; rw [if_pos h0]; simp [hn]
    · right; rw [if_pos h0]; simp [hn]
  · by_cases hv : s.board n.2 n.1 = value ∧ n ∉ acc.2.1
    · left; rw [if_neg h0, if_pos hv]
    · left; rw [if_neg h0, if_neg hv]

lemma floodStep_libs_self (s : GoGameState) (value : Int)
    (acc : List (Nat × Nat) × List (Nat × Nat) × List (Nat × Nat)) (n : Nat × Nat)
    (h0 : s.board n.2 n.1 = 0) :
    n ∈ (floodStep s value acc n).2.2 := by
  simp only [floodStep]
  rw [if_pos h0]
  by_cases hn : n ∈ acc.2.2
  · simp [hn]
  · simp [hn]

lemma foldlFlood_libs_mono (s : GoGameState) (value : Int) :
    ∀ (l : List (Nat × Nat))
      (acc : List (Nat × Nat) × List (Nat × Nat) × List (Nat × Nat)) (p : Nat × Nat),
      p ∈ acc.2.2 → p ∈ (l.foldl (floodStep s value) acc).2.2
  | [], _, _, hp => hp
  | n :: l, acc, p, hp => by
    rw [List.foldl_cons]
    apply foldlFlood_libs_mono s value l
    rcases floodStep_libs_cases s value acc n with h | h
    · rw [h]; exact hp
    · rw [h]; exact List.mem_cons_of_mem _ hp

lemma foldlFlood_libs_insert (s : GoGameState) (value : Int) :
    ∀ (l : List (Nat × Nat))
      (acc : List (Nat × Nat) × List (Nat × Nat) × List (Nat × Nat)) (n : Nat × Nat),
      n ∈ l → s.board n.2 n.1 = 0 → n ∈ (l.foldl (floodStep s value) acc).2.2
  | [], _, n, h, _ => absurd h (List.not_mem_nil n)
  | a :: l, acc, n, h, h0 => by
    rw [List.foldl_cons]
    rcases List.mem_cons.mp h with rfl | hmem
    · exact foldlFlood_libs_mono s value l _ n (floodStep_libs_self s value acc n h0)
    · exact foldlFlood_libs_insert s value l _ n hmem h0

lemma foldlFlood_stack_orig (s : GoGameState) (value : Int) :
    ∀ (l : List (Nat × Nat))
      (acc : List (Nat × Nat) × List (Nat × Nat) × List (Nat × Nat)) (p : Nat × Nat),
      p ∈ (l.foldl (floodStep s value) acc).1 → p ∈ acc.1 ∨ s.board p.2 p.1 = value
  | [], _, _, hp => Or.inl hp
  | n :: l, acc, p, hp => by
    rw [List.foldl_cons] at hp
    rcases foldlFlood_stack_orig s value l _ p hp with h | h
    · rcases floodStep_stack_cases s value acc n with hc | hc
      · rw [hc] at h; exact Or.inl h
      · rw [hc.1] at h
        rcases List.mem_cons.mp h with rfl | h2
        · exact Or.inr hc.2
        · exact Or.inl h2
    · exact Or.inr h

lemma collectGroupAux_group_mono (s : GoGameState) (value : Int) :
    ∀ (fuel : Nat) (stack visited group libs : List (Nat × Nat)) (p : Nat × Nat),
      p ∈ group → p ∈ (collectGroupAux s value fuel stack visited group libs).1
  | 0, _, _, _, _, _, hp => hp
  | _ + 1, [], _, _, _, _, hp => hp
  | fuel + 1, c :: rest, visited, group, libs, p, hp =>
    collectGroupAux_group_mono s value fuel
      ((neighbors s c.1 c.2).foldl (floodStep s value) (rest, visited, libs)).1
      ((neighbors s c.1 c.2).foldl (floodStep s value) (rest, visited, libs)).2.1
      (group ++ [c])
      ((neighbors s c.1 c.2).foldl (floodStep s value) (rest, visited, libs)).2.2
      p (List.mem_append_left _ hp)

lemma collectGroupAux_libs_mono (s : GoGameState) (value : Int) :
    ∀ (fuel : Nat) (stack visited group libs : List (Nat × Nat)) (p : Nat × Nat),
      p ∈ libs → p ∈ (collectGroupAux s value fuel stack visited group libs).2
  | 0, _, _, _, _, _, hp => hp
  | _ + 1, [], _, _, _, _, hp => hp
  | fuel + 1, c :: rest, visited, group, libs, p, hp =>
    collectGroupAux_libs_mono s value fuel
      ((neighbors s c.1 c.2).foldl (floodStep s value) (rest, visited, libs)).1
      ((neighbors s c.1 c.2).foldl (floodStep s value) (rest, visited, libs)).2.1
      (group ++ [c])
      ((neighbors s c.1 c.2).foldl (floodStep s value) (rest, visited, libs)).2.2
      p (foldlFlood_libs_mono s value (neighbors s c.1 c.2) (rest, visited, libs) p hp)

lemma collectGroupAux_group_val (s : GoGameState) (value : Int) :
    ∀ (fuel : Nat) (stack visited group libs : List (Nat × Nat)),
      (∀ p ∈ stack, s.board p.2 p.1 = value) →
      (∀ p ∈ group, s.board p.2 p.1 = value) →
      ∀ p ∈ (collectGroupAux s value fuel stack visited group libs).1,
        s.board p.2 p.1 = value
  | 0, _, _, _, _, _, hgroup => hgroup
  | _ + 1, [], _, _, _, _, hgroup => hgroup
  | fuel + 1, c :: rest, visited, group, libs, hstack, hgroup => by
    intro p hp
    refine collectGroupAux_group_val s value fuel
      ((neighbors s c.1 c.2).foldl (floodStep s value) (rest, visited, libs)).1
      ((neighbors s c.1 c.2).foldl (floodStep s value) (rest, visited, libs)).2.1
      (group ++ [c])
      ((neighbors s c.1 c.2).foldl (floodStep s value) (rest, visited, libs)).2.2
      ?_ ?_ p hp
    · intro q hq
      rcases foldlFlood_stack_orig s value (neighbors s c.1 c.2)
          (rest, visited, libs) q hq with h | h
      · exact hstack q (List.mem_cons_of_mem _ h)
      · exact h
    · intro q hq
      rcases List.mem_append.mp hq with h | h
      · exact hgroup q h
      · rw [List.mem_singleton.mp h]
        exact hstack c (List.mem_cons_self _ _)

lemma collectGroup_mem_val (s : GoGameState) (x y : Nat) :
    ∀ p ∈ (collectGroup s x y).1, s.board p.2 p.1 = s.board y x := by
  intro p hp
  refine collectGroupAux_group_val s (s.board y x) (s.size * s.size + 1)
    [(x, y)] [(x, y)] [] [] ?_ ?_ p hp
  · intro q hq
    rw [List.mem_singleton.mp hq]
  · intro q hq
    exact absurd hq (List.not_mem_nil q)

lemma collectGroup_self_mem (s : GoGameState) (x y : Nat) :
    (x, y) ∈ (collectGroup s x y).1 := by
  show (x, y) ∈ (collectGroupAux s (s.board y x) (s.size * s.size + 1)
    [(x, y)] [(x, y)] [] []).1
  rw [collectGroupAux]
  exact collectGroupAux_group_mono s (s.board y x) (s.size * s.size) _ _ _ _ (x, y)
    (by simp)

lemma collectGroup_libs_ne_zero (s : GoGameState) (x y : Nat) (n : Nat × Nat)
    (hn : n ∈ neighbors s x y) (h0 : s.board n.2 n.1 = 0) :
    (collectGroup s x y).2 ≠ 0 := by
  have hmem : n ∈ (collectGroupAux s (s.board y x) (s.size * s.size + 1)
      [(x, y)] [(x, y)] [] []).2 := by
    rw [collectGroupAux]
    exact collectGroupAux_libs_mono s (s.board y x) (s.size * s.size) _ _ _ _ n
      (foldlFlood_libs_insert s (s.board y x) (neighbors s x y) ([], [(x, y)], []) n hn h0)
  show (collectGroupAux s (s.board y x) (s.size * s.size + 1)
    [(x, y)] [(x, y)] [] []).2.length ≠ 0
  intro hlen
  rw [List.length_eq_zero] at hlen
  rw [hlen] at hmem
  exact absurd hmem (List.not_mem_nil n)

lemma foldlCap_acc_mono (s1 : GoGameState) (value : Int) :
    ∀ (l : List (Nat × Nat)) (acc : List (List (Nat × Nat))) (g : List (Nat × Nat)),
      g ∈ acc → g ∈ l.foldl (capStep s1 value) acc
  | [], _, _, h => h
  | n :: l, acc, g, h => by
    rw [List.foldl_cons]
    apply foldlCap_acc_mono s1 value l
    simp only [capStep]
    by_cases h1 : s1.board n.2 n.1 = -value
    · by_cases h2 : (collectGroup s1 n.1 n.2).2 = 0
      · rw [if_pos h1, if_pos h2]; exact List.mem_append_left _ h
      · rw [if_pos h1, if_neg h2]; exact h
    · rw [if_neg h1]; exact h

lemma foldlCap_insert (s1 : GoGameState) (value : Int) :
    ∀ (l : List (Nat × Nat)) (acc : List (List (Nat × Nat))) (n : Nat × Nat),
      n ∈ l → s1.board n.2 n.1 = -value → (collectGroup s1 n.1 n.2).2 = 0 →
      (collectGroup s1 n.1 n.2).1 ∈ l.foldl (capStep s1 value) acc
  | [], _, n, h, _, _ => absurd h (List.not_mem_nil n)
  | a :: l, acc, n, h, h1, h2 => by
    rw [List.foldl_cons]
    rcases List.mem_cons.mp h with rfl | hmem
    · apply foldlCap_acc_mono s1 value l
      simp only [capStep]
      rw [if_pos h1, if_pos h2]
      exact List.mem_append_right _ (List.mem_singleton.mpr rfl)
    · exact foldlCap_insert s1 value l _ n hmem h1 h2

lemma foldlCap_val (s1 : GoGameState) (value : Int) :
    ∀ (l : List (Nat × Nat)) (acc : List (List (Nat × Nat))),
      (∀ g ∈ acc, ∀ p ∈ g, s1.board p.2 p.1 = -value) →
      ∀ g ∈ l.foldl (capStep s1 value) acc, ∀ p ∈ g, s1.board p.2 p.1 = -value
  | [], _, hacc => hacc
  | a :: l, acc, hacc => by
    rw [List.foldl_cons]
    apply foldlCap_val s1 value l
    intro g hg p hp
    revert hg
    simp only [capStep]
    by_cases h1 : s1.board a.2 a.1 = -value
    · by_cases h2 : (collectGroup s1 a.1 a.2).2 = 0
      · rw [if_pos h1, if_pos h2]
        intro hg
        rcases List.mem_append.mp hg with hga | hgn
        · exact hacc g hga p hp
        · rw [List.mem_singleton.mp hgn] at hp
          have := collectGroup_mem_val s1 a.1 a.2 p hp
          rw [this, h1]
      · rw [if_pos h1, if_neg h2]
        intro hg
        exact hacc g hg p hp
    · rw [if_neg h1]
      intro hg
      exact hacc g hg p hp

lemma capturedGroups_val (s : GoGameState) (color : String) (x y : Nat) :
    ∀ g ∈ capturedGroupsOf s color x y, ∀ p ∈ g,
      (placedState s color x y).board p.2 p.1 = -(moveValue color) := by
  apply foldlCap_val (placedState s color x y) (moveValue color) (neighbors s x y) []
  intro g hg
  exact absurd hg (List.not_mem_nil g)

lemma capturedStones_val (s : GoGameState) (color : String) (x y : Nat) :
    ∀ p ∈ capturedStonesOf s color x y,
      (placedState s color x y).board p.2 p.1 = -(moveValue color) := by
  intro p hp
  rcases List.mem_flatten.mp hp with ⟨g, hg, hpg⟩
  exact capturedGroups_val s color x y g hg p hpg

lemma capturedGroups_mem (s : GoGameState) (color : String) (x y : Nat) (n : Nat × Nat)
    (hn : n ∈ neighbors s x y)
    (h1 : (placedState s color x y).board n.2 n.1 = -(moveValue color))
    (h2 : (collectGroup (placedState s color x y) n.1 n.2).2 = 0) :
    (collectGroup (placedState s color x y) n.1 n.2).1 ∈ capturedGroupsOf s color x y :=
  foldlCap_insert (placedState s color x y) (moveValue color) (neighbors s x y) [] n hn h1 h2

lemma placedState_board (s : GoGameState) (color : String) (x y yy xx : Nat) :
    (placedState s color x y).board yy xx
      = if yy = y ∧ xx = x then moveValue color else s.board yy xx := rfl

lemma afterCaptures_board (s : GoGameState) (color : String) (x y yy xx : Nat) :
    (afterCaptures s color x y).board yy xx
      = if (xx, yy) ∈ capturedStonesOf s color x y then 0
        else (placedState s color x y).board yy xx :=
  foldl_setCell 0 (capturedStonesOf s color x y) (placedState s color x y).board yy xx

lemma neighbors_size_congr (s t : GoGameState) (x y : Nat) (h : s.size = t.size) :
    neighbors s x y = neighbors t x y := by
  unfold neighbors
  rw [h]

lemma moveValue_ne_zero (color : String) : moveValue color ≠ 0 := by
  unfold moveValue
  by_cases h : color = "B"
  · rw [if_pos h]; decide
  · rw [if_neg h]; decide

lemma playMove_occupied_eq (s : GoGameState) (color : String) (x y : Nat)
    (h : s.board y x ≠ 0) :
    playMove s color (x, y) = (s, Except.error MoveError.occupiedPoint) := by
  unfold playMove
  rw [if_pos h]

lemma playMove_suicide_eq (s : GoGameState) (color : String) (x y : Nat)
    (h0 : s.board y x = 0)
    (hs : (collectGroup (afterCaptures s color x y) x y).2 = 0) :
    playMove s color (x, y) =
      (⟨s.size,
        setCell
          ((capturedStonesOf s color x y).foldl
            (fun b c => setCell b c.1 c.2 (-(moveValue color)))
            (afterCaptures s color x y).board) x y 0⟩,
       Except.error MoveError.suicideMove) := by
  unfold playMove
  rw [if_neg (by simp [h0]), if_pos hs]

lemma playMove_ok_eq (s : GoGameState) (color : String) (x y : Nat)
    (h0 : s.board y x = 0)
    (hs : (collectGroup (afterCaptures s color x y) x y).2 ≠ 0) :
    playMove s color (x, y)
      = (afterCaptures s color x y, Except.ok (capturedStonesOf s color x y)) := by
  unfold playMove
  rw [if_neg (by simp [h0]), if_neg hs]

/-!
Claim theorems.
-/

/-- C1: for every board state and every move onto an in-range empty cell whose
placement leaves the mover's own resulting group with zero liberties after
opponent captures have been removed, `play_move` fails with the suicide error
and the board is exactly equal, cell for cell, to its state before the call:
all captured opponent stones are restored to their prior color and the
just-placed stone is removed. -/
theorem suicide_restores_board (s : GoGameState) (color : String) (x y : Nat)
    (hx : x < s.size) (hy : y < s.size) (hempty : s.board y x = 0)
    (hsuicide : (collectGroup (afterCaptures s color x y) x y).2 = 0) :
    playMove s color (x, y) = (s, Except.error MoveError.suicideMove) := by
  rw [playMove_suicide_eq s color x y hempty hsuicide]
  have hb : setCell
      ((capturedStonesOf s color x y).foldl
        (fun b c => setCell b c.1 c.2 (-(moveValue color)))
        (afterCaptures s color x y).board) x y 0 = s.board := by
    funext yy xx
    by_cases hc : yy = y ∧ xx = x
    · rw [setCell_apply, if_pos hc, hc.1, hc.2]
      exact hempty.symm
    · rw [setCell_apply, if_neg hc, foldl_setCell]
      by_cases hm : (xx, yy) ∈ capturedStonesOf s color x y
      · rw [if_pos hm]
        have hv := capturedStones_val s color x y (xx, yy) hm
        rw [placedState_board, if_neg hc] at hv
        exact hv.symm
      · rw [if_neg hm, afterCaptures_board, if_neg hm, placedState_board, if_neg hc]
  rw [hb]

/-- Witness for C1: on a 1×1 board the only move is a suicide, and the board
comes back exactly empty. -/
theorem suicide_restores_board_witness :
    (collectGroup (afterCaptures (initState 1) "B" 0 0) 0 0).2 = 0 ∧
    playMove (initState 1) "B" (0, 0) = (initState 1, Except.error MoveError.suicideMove) :=
  ⟨by decide,
   suicide_restores_board (initState 1) "B" 0 0 (by decide) (by decide) rfl (by decide)⟩

/-- C2: a move onto an in-range empty cell that reduces at least one
4-adjacent opposing group to zero liberties succeeds (captures are resolved
before the suicide check), the final board zeroes exactly the captured
stones, every such zero-liberty opposing group is fully removed, and the
returned list is exactly the `captured_stones` list of removed coordinates. -/
theorem capture_before_suicide (s : GoGameState) (color : String) (x y : Nat)
    (n : Nat × Nat)
    (hx : x < s.size) (hy : y < s.size) (hempty : s.board y x = 0)
    (hn : n ∈ neighbors s x y)
    (hopp : (placedState s color x y).board n.2 n.1 = -(moveValue color))
    (hzero : (collectGroup (placedState s color x y) n.1 n.2).2 = 0) :
    playMove s color (x, y)
      = (afterCaptures s color x y, Except.ok (capturedStonesOf s color x y)) ∧
    (∀ yy xx : Nat, (afterCaptures s color x y).board yy xx
      = if (xx, yy) ∈ capturedStonesOf s color x y then 0
        else (placedState s color x y).board yy xx) ∧
    (∀ m ∈ neighbors s x y,
      (placedState s color x y).board m.2 m.1 = -(moveValue color) →
      (collectGroup (placedState s color x y) m.1 m.2).2 = 0 →
      ∀ p ∈ (collectGroup (placedState s color x y) m.1 m.2).1,
        p ∈ capturedStonesOf s color x y ∧
        (afterCaptures s color x y).board p.2 p.1 = 0) := by
  have hgrp := capturedGroups_mem s color x y n hn hopp hzero
  have hns : n ∈ capturedStonesOf s color x y := by
    apply List.mem_flatten.mpr
    refine ⟨(collectGroup (placedState s color x y) n.1 n.2).1, hgrp, ?_⟩
    have := collectGroup_self_mem (placedState s color x y) n.1 n.2
    rwa [Prod.mk.eta] at this
  have hzero2 : (afterCaptures s color x y).board n.2 n.1 = 0 := by
    rw [afterCaptures_board, if_pos (by rwa [Prod.mk.eta])]
  have hne : (collectGroup (afterCaptures s color x y) x y).2 ≠ 0 := by
    apply collectGroup_libs_ne_zero (afterCaptures s color x y) x y n ?_ hzero2
    rwa [neighbors_size_congr (afterCaptures s color x y) s x y rfl]
  refine ⟨playMove_ok_eq s color x y hempty hne, ?_, ?_⟩
  · intro yy xx
    exact afterCaptures_board s color x y yy xx
  · intro m hm h1 h2 p hp
    have hgm := capturedGroups_mem s color x y m hm h1 h2
    have hps : p ∈ capturedStonesOf s color x y :=
      List.mem_flatten.mpr ⟨(collectGroup (placedState s color x y) m.1 m.2).1, hgm, hp⟩
    refine ⟨hps, ?_⟩
    rw [afterCaptures_board, if_pos (by rwa [Prod.mk.eta])]

/-- Witness board for C2: a 2×2 board with a black stone at x=0,y=0 and a
white stone at x=0,y=1; white playing x=1,y=0 captures the black stone even
though the point would otherwise share no liberty. -/
def c2State : GoGameState :=
  ⟨2, fun yy xx => if yy = 0 ∧ xx = 0 then 1 else if yy = 1 ∧ xx = 0 then -1 else 0⟩

/-- Witness for C2: the capturing move on `c2State` succeeds and returns the
captured coordinates. -/
theorem capture_before_suicide_witness :
    (collectGroup (placedState c2State ("W") 1 0) 0 0).2 = 0 ∧
    playMove c2State ("W") (1, 0)
      = (afterCaptures c2State ("W") 1 0, Except.ok (capturedStonesOf c2State ("W") 1 0)) :=
  ⟨by decide,
   (capture_before_suicide c2State ("W") 1 0 (0, 0) (by decide) (by decide) (by decide)
     (by decide) (by decide) (by decide)).1⟩

/-- C9: playing any in-range occupied point fails with the occupied-point
error before any mutation, so the returned board is exactly the input board. -/
theorem occupied_point_atomic (s : GoGameState) (color : String) (x y : Nat)
    (hx : x < s.size) (hy : y < s.size) (hocc : s.board y x ≠ 0) :
    playMove s color (x, y) = (s, Except.error MoveError.occupiedPoint) :=
  playMove_occupied_eq s color x y hocc

/-- Witness board for C9: a 2×2 board with one black stone at x=0,y=0. -/
def c9State : GoGameState :=
  ⟨2, fun yy xx => if yy = 0 ∧ xx = 0 then 1 else 0⟩

/-- Witness for C9: white playing on the occupied point x=0,y=0 fails and
leaves the board untouched. -/
theorem occupied_point_atomic_witness :
    c9State.board 0 0 ≠ 0 ∧
    playMove c9State ("W") (0, 0) = (c9State, Except.error MoveError.occupiedPoint) :=
  ⟨by decide, occupied_point_atomic c9State ("W") 0 0 (by decide) (by decide) (by decide)⟩

lemma ratFloor_eq_intFloor (q : ℚ) : Rat.floor q = ⌊q⌋ := by
  rw [Rat.floor_def', Rat.floor_def]

lemma selected_nonpos (r : ℚ) (mode : String) (i : Nat) (hr : r ≤ 0) :
    selected r mode i = decide (mode = "train") := by
  unfold selected
  rw [if_pos hr]

lemma selected_pos_val (r : ℚ) (i : Nat) (hr : ¬ r ≤ 0) :
    selected r ("val") i = decide (((i % 1000 : Nat) : ℤ) < Rat.floor (r * 1000)) := by
  unfold selected
  rw [if_neg hr]
  show (if ("val") = "val" then decide (((i % 1000 : Nat) : ℤ) < Rat.floor (r * 1000))
        else decide (((i % 1000 : Nat) : ℤ) ≥ Rat.floor (r * 1000))) = _
  rw [if_pos rfl]

lemma selected_pos_train (r : ℚ) (i : Nat) (hr : ¬ r ≤ 0) :
    selected r ("train") i = decide (Rat.floor (r * 1000) ≤ ((i % 1000 : Nat) : ℤ)) := by
  unfold selected
  rw [if_neg hr]
  show (if ("train") = "val" then decide (((i % 1000 : Nat) : ℤ) < Rat.floor (r * 1000))
        else decide (((i % 1000 : Nat) : ℤ) ≥ Rat.floor (r * 1000))) = _
  rw [if_neg (by decide)]

/-- C3: for every game index and every `val_ratio` in [0,1], with
`threshold = floor(val_ratio * 1000)`, the game is selected for ("val") iff
`(i mod 1000) < threshold`, for ("train") iff `(i mod 1000) >= threshold`, the
two splits are complementary, and for `val_ratio <= 0` everything is ("train")
and nothing is ("val"). -/
theorem split_partition (i : Nat) (r : ℚ) (h0 : 0 ≤ r) (h1 : r ≤ 1) :
    (selected r ("val") i = true ↔ ((i % 1000 : Nat) : ℤ) < Rat.floor (r * 1000)) ∧
    (selected r ("train") i = true ↔ Rat.floor (r * 1000) ≤ ((i % 1000 : Nat) : ℤ)) ∧
    (selected r ("train") i = !(selected r ("val") i)) ∧
    (r ≤ 0 → selected r ("train") i = true ∧ selected r ("val") i = false) := by
  by_cases hr : r ≤ 0
  · have hr0 : r = 0 := le_antisymm hr h0
    subst hr0
    have hfl : Rat.floor ((0 : ℚ) * 1000) = 0 := by
      rw [ratFloor_eq_intFloor]
      norm_num
    refine ⟨?_, ?_, ?_, fun _ => ⟨?_, ?_⟩⟩
    · rw [selected_nonpos 0 ("val") i hr, hfl]
      constructor
      · intro h
        exact absurd h (by decide)
      · intro h
        exact absurd h (by omega)
    · rw [selected_nonpos 0 ("train") i hr, hfl]
      constructor
      · intro _
        omega
      · intro _
        decide
    · rw [selected_nonpos 0 ("train") i hr, selected_nonpos 0 ("val") i hr]
      decide
    · rw [selected_nonpos 0 ("train") i hr]
      decide
    · rw [selected_nonpos 0 ("val") i hr]
      decide
  · refine ⟨?_, ?_, ?_, ?_⟩
    · rw [selected_pos_val r i hr]
      exact decide_eq_true_iff
    · rw [selected_pos_train r i hr]
      exact decide_eq_true_iff
    · rw [selected_pos_train r i hr, selected_pos_val r i hr]
      have hiff : (Rat.floor (r * 1000) ≤ ((i % 1000 : Nat) : ℤ))
          ↔ ¬(((i % 1000 : Nat) : ℤ) < Rat.floor (r * 1000)) := not_lt.symm
      rw [decide_eq_decide.mpr hiff, decide_not]
    · intro hcontra
      exact absurd hcontra hr

/-- Witness for C3 at `val_ratio = 1/10`, game index 42. -/
theorem split_partition_witness :
    ((0 : ℚ) ≤ 1/10) ∧ ((1 : ℚ)/10 ≤ 1) ∧
    (selected (1/10) "val" 42 = true ↔ ((42 % 1000 : Nat) : ℤ) < Rat.floor ((1/10) * 1000)) :=
  ⟨by norm_num, by norm_num, (split_partition 42 (1/10) (by norm_num) (by norm_num)).1⟩

lemma foldl_forceSet_frame (sz : Nat) (v : Int) :
    ∀ (coords : List (Int × Int)) (b : Nat → Nat → Int) (yy xx : Nat),
      (∀ c ∈ coords, (1 ≤ c.1 ∧ c.1 ≤ (sz : Int) ∧ 1 ≤ c.2 ∧ c.2 ≤ (sz : Int)) →
        ¬((c.1 - 1).toNat = xx ∧ (c.2 - 1).toNat = yy)) →
      (coords.foldl (forceSet sz v) b) yy xx = b yy xx
  | [], _, _, _, _ => rfl
  | c :: t, b, yy, xx, h => by
    rw [List.foldl_cons,
      foldl_forceSet_frame sz v t _ yy xx (fun d hd => h d (List.mem_cons_of_mem _ hd))]
    unfold forceSet
    by_cases hc : 1 ≤ c.1 ∧ c.1 ≤ (sz : Int) ∧ 1 ≤ c.2 ∧ c.2 ≤ (sz : Int)
    · rw [if_pos hc, setCell_apply, if_neg ?_]
      intro hcell
      exact h c (List.mem_cons_self _ _) hc ⟨hcell.2.symm, hcell.1.symm⟩
    · rw [if_neg hc]

/-- C10: `apply_setup` and `apply_empty` silently ignore any listed 1-indexed
coordinate outside `[1, size]` in either component (dropping such a coordinate
from the list changes nothing), and no cell other than those at the listed
in-range coordinates is changed by either call. -/
theorem setup_ignores_out_of_range :
    (∀ (s : GoGameState) (color : String) (c : Int × Int) (coords : List (Int × Int)),
      ¬(1 ≤ c.1 ∧ c.1 ≤ (s.size : Int) ∧ 1 ≤ c.2 ∧ c.2 ≤ (s.size : Int)) →
      applySetup s color (c :: coords) = applySetup s color coords) ∧
    (∀ (s : GoGameState) (c : Int × Int) (coords : List (Int × Int)),
      ¬(1 ≤ c.1 ∧ c.1 ≤ (s.size : Int) ∧ 1 ≤ c.2 ∧ c.2 ≤ (s.size : Int)) →
      applyEmpty s (c :: coords) = applyEmpty s coords) ∧
    (∀ (s : GoGameState) (color : String) (coords : List (Int × Int)) (yy xx : Nat),
      (∀ c ∈ coords, (1 ≤ c.1 ∧ c.1 ≤ (s.size : Int) ∧ 1 ≤ c.2 ∧ c.2 ≤ (s.size : Int)) →
        ¬((c.1 - 1).toNat = xx ∧ (c.2 - 1).toNat = yy)) →
      (applySetup s color coords).board yy xx = s.board yy xx) ∧
    (∀ (s : GoGameState) (coords : List (Int × Int)) (yy xx : Nat),
      (∀ c ∈ coords, (1 ≤ c.1 ∧ c.1 ≤ (s.size : Int) ∧ 1 ≤ c.2 ∧ c.2 ≤ (s.size : Int)) →
        ¬((c.1 - 1).toNat = xx ∧ (c.2 - 1).toNat = yy)) →
      (applyEmpty s coords).board yy xx = s.board yy xx) := by
  refine ⟨?_, ?_, ?_, ?_⟩
  · intro s color c coords hoob
    unfold applySetup
    rw [List.foldl_cons]
    have : forceSet s.size (moveValue color) s.board c = s.board := by
      unfold forceSet
      rw [if_neg hoob]
    rw [this]
  · intro s c coords hoob
    unfold applyEmpty
    rw [List.foldl_cons]
    have : forceSet s.size 0 s.board c = s.board := by
      unfold forceSet
      rw [if_neg hoob]
    rw [this]
  · intro s color coords yy xx h
    exact foldl_forceSet_frame s.size (moveValue color) coords s.board yy xx h
  · intro s coords yy xx h
    exact foldl_forceSet_frame s.size 0 coords s.board yy xx h

/-- Witness for C10 on a 2×2 board: the out-of-range coordinate (3,1) is
ignored by `apply_setup`, and a call listing only (1,2) leaves cell
x=1,y=0 unchanged. -/
theorem setup_ignores_out_of_range_witness :
    applySetup (initState 2) "B" [((3 : Int), (1 : Int)), (1, 2)]
      = applySetup (initState 2) "B" [((1 : Int), (2 : Int))] ∧
    (applySetup (initState 2) "B" [((1 : Int), (2 : Int))]).board 0 1
      = (initState 2).board 0 1 :=
  ⟨setup_ignores_out_of_range.1 (initState 2) "B" (3, 1) [(1, 2)] (by decide),
   setup_ignores_out_of_range.2.2.1 (initState 2) "B" [(1, 2)] 0 1 (by decide)⟩

lemma stoneCount_setCell (sz : Nat) (b : Nat → Nat → Int) (x y : Nat) (v : Int)
    (hx : x < sz) (hy : y < sz) (h0 : b y x = 0) (hv : v ≠ 0) :
    stoneCount ⟨sz, setCell b x y v⟩ = stoneCount ⟨sz, b⟩ + 1 := by
  unfold stoneCount
  have hset : Finset.filter (fun p : Nat × Nat => setCell b x y v p.2 p.1 ≠ 0)
      (Finset.range sz ×ˢ Finset.range sz)
      = insert (x, y) (Finset.filter (fun p : Nat × Nat => b p.2 p.1 ≠ 0)
          (Finset.range sz ×ˢ Finset.range sz)) := by
    ext ⟨px, py⟩
    simp only [Finset.mem_filter, Finset.mem_insert, Finset.mem_product,
      Finset.mem_range, setCell_apply, Prod.mk.injEq]
    by_cases hc : py = y ∧ px = x
    · rw [if_pos hc, hc.1, hc.2]
      constructor
      · intro _
        exact Or.inl ⟨rfl, rfl⟩
      · intro _
        exact ⟨⟨hx, hy⟩, hv⟩
    · rw [if_neg hc]
      constructor
      · intro hp
        exact Or.inr hp
      · intro hp
        rcases hp with ⟨hpx, hpy⟩ | hp
        · exact absurd ⟨hpy, hpx⟩ hc
        · exact hp
  rw [hset, Finset.card_insert_of_not_mem]
  simp only [Finset.mem_filter, Finset.mem_product, Finset.mem_range]
  intro hcontra
  exact hcontra.2 h0

lemma stoneCount_initState (n : Nat) : stoneCount (initState n) = 0 := by
  unfold stoneCount initState
  simp

lemma playMove_ok_dest (s : GoGameState) (color : String) (x y : Nat)
    (s' : GoGameState) (l : List (Nat × Nat))
    (h : playMove s color (x, y) = (s', Except.ok l)) :
    s.board y x = 0 ∧ s' = afterCaptures s color x y ∧ l = capturedStonesOf s color x y := by
  by_cases h0 : s.board y x = 0
  · by_cases hs : (collectGroup (afterCaptures s color x y) x y).2 = 0
    · rw [playMove_suicide_eq s color x y h0 hs] at h
      have := congrArg Prod.snd h
      simp at this
    · rw [playMove_ok_eq s color x y h0 hs] at h
      have h1 := congrArg Prod.fst h
      have h2 := congrArg Prod.snd h
      simp only at h1 h2
      rw [Except.ok.injEq] at h2
      exact ⟨h0, h1.symm, h2.symm⟩
  · rw [playMove_occupied_eq s color x y h0] at h
    have := congrArg Prod.snd h
    simp at this

lemma playMove_noCapture_count (s s' : GoGameState) (color : String) (x y : Nat)
    (hx : x < s.size) (hy : y < s.size)
    (h : playMove s color (x, y) = (s', Except.ok [])) :
    stoneCount s' = stoneCount s + 1 ∧ s'.size = s.size := by
  obtain ⟨h0, hs', hcap⟩ := playMove_ok_dest s color x y s' [] h
  subst hs'
  have hafter : afterCaptures s color x y = ⟨s.size, setCell s.board x y (moveValue color)⟩ := by
    unfold afterCaptures
    rw [← hcap]
    rfl
  rw [hafter]
  refine ⟨?_, rfl⟩
  exact stoneCount_setCell s.size s.board x y (moveValue color) hx hy h0
    (moveValue_ne_zero color)

/-- A sequence of `play_move` calls in which every move is in range, succeeds,
and captures nothing; `none` as soon as any of those conditions fails.  The
range guard mirrors the coordinate validation that every replay call site
performs before calling `play_move` (datasets.py line 188, datasets_sgf.py
line 81). -/
def playSeqNC (s : GoGameState) : List (String × Nat × Nat) → Option GoGameState
  | [] => some s
  | (c, xy) :: rest =>
    if xy.1 < s.size ∧ xy.2 < s.size then
      match playMove s c xy with
      | (s', Except.ok []) => playSeqNC s' rest
      | _ => none
    else none

lemma playSeqNC_count :
    ∀ (moves : List (String × Nat × Nat)) (s s' : GoGameState),
      playSeqNC s moves = some s' → stoneCount s' = stoneCount s + moves.length
  | [], s, s', h => by
    have : s = s' := by
      simpa [playSeqNC] using h
    rw [← this]
    simp
  | (c, xy) :: rest, s, s', h => by
    rw [playSeqNC] at h
    by_cases hr : xy.1 < s.size ∧ xy.2 < s.size
    · rw [if_pos hr] at h
      rcases hpm : playMove s c xy with ⟨s1, r⟩
      rw [hpm] at h
      match r, h with
      | Except.ok [], h => 
        have hxy : xy = (xy.1, xy.2) := rfl
        rw [hxy] at hpm
        have hc := playMove_noCapture_count s s1 c xy.1 xy.2 hr.1 hr.2 hpm
        have hrec := playSeqNC_count rest s1 s' h
        rw [hrec, hc.1, List.length_cons]
        omega
      | Except.ok (a :: t), h => exact absurd h (by simp)
      | Except.error e, h => exact absurd h (by simp)
    · rw [if_neg hr] at h
      exact absurd h (by simp)

/-- C8: replaying any sequence of in-range `play_move` calls that all succeed
and capture nothing, starting from the empty board, leaves exactly one stone
per call on the board. -/
theorem no_capture_stone_count (n : Nat) (moves : List (String × Nat × Nat))
    (s' : GoGameState) (h : playSeqNC (initState n) moves = some s') :
    stoneCount s' = moves.length := by
  rw [playSeqNC_count moves (initState n) s' h, stoneCount_initState]
  omega

/-- The board after the two witness moves of C8. -/
def c8Final : GoGameState :=
  (playMove (playMove (initState 2) "B" (0, 0)).1 ("W") (1, 1)).1

/-- Witness for C8: two capture-free moves on a 2×2 board leave two stones. -/
theorem no_capture_stone_count_witness :
    playSeqNC (initState 2) [("B", 0, 0), ("W", 1, 1)] = some c8Final ∧
    stoneCount c8Final = 2 :=
  ⟨rfl, no_capture_stone_count 2 [("B", 0, 0), ("W", 1, 1)] c8Final rfl⟩

lemma gameToSamples_entry (boardSize : Nat) (s : GoGameState) (color : String)
    (x y : Int) (rest : List MoveEntry) :
    gameToSamples boardSize s (MoveEntry.entry color x y :: rest) =
      if 1 ≤ x ∧ x ≤ (boardSize : Int) ∧ 1 ≤ y ∧ y ≤ (boardSize : Int) then
        match playMove s color ((x - 1).toNat, (y - 1).toNat) with
        | (s', Except.ok _) =>
          ((makeFeatures s color, (y - 1) * boardSize + (x - 1)) : Sample)
            :: gameToSamples boardSize s' rest
        | (_, Except.error _) =>
          [((makeFeatures s color, (y - 1) * boardSize + (x - 1)) : Sample)]
      else gameToSamples boardSize s rest := rfl

/-- The replay of a prefix in which every entry is a well-formed, in-range
placement accepted by `play_move`; `none` as soon as any move is malformed,
out of range, or rejected. -/
def runClean (size : Nat) (s : GoGameState) : List MoveEntry → Option GoGameState
  | [] => some s
  | MoveEntry.malformed :: _ => none
  | MoveEntry.entry color x y :: rest =>
    if 1 ≤ x ∧ x ≤ (size : Int) ∧ 1 ≤ y ∧ y ≤ (size : Int) then
      match playMove s color ((x - 1).toNat, (y - 1).toNat) with
      | (s', Except.ok _) => runClean size s' rest
      | (_, Except.error _) => none
    else none

lemma gameToSamples_clean_len (size : Nat) :
    ∀ (pre : List MoveEntry) (rest : List MoveEntry) (c : String) (x y : Int)
      (s s' : GoGameState) (err : MoveError),
      runClean size s pre = some s' →
      (1 ≤ x ∧ x ≤ (size : Int) ∧ 1 ≤ y ∧ y ≤ (size : Int)) →
      (playMove s' c ((x - 1).toNat, (y - 1).toNat)).2 = Except.error err →
      (gameToSamples size s (pre ++ MoveEntry.entry c x y :: rest)).length
        = pre.length + 1
  | [], rest, c, x, y, s, s', err, hpre, hr, hf => by
    have hss : s = s' := by
      simpa [runClean] using hpre
    subst hss
    rw [List.nil_append, gameToSamples_entry, if_pos hr]
    rcases hpm : playMove s c ((x - 1).toNat, (y - 1).toNat) with ⟨s1, r⟩
    cases r with
    | ok l =>
      rw [hpm] at hf
      exact absurd hf (by simp)
    | error e =>
      rfl
  | MoveEntry.malformed :: pre, rest, c, x, y, s, s', err, hpre, hr, hf => by
    exact absurd hpre (by simp [runClean])
  | MoveEntry.entry c0 x0 y0 :: pre, rest, c, x, y, s, s', err, hpre, hr, hf => by
    rw [runClean] at hpre
    by_cases hr0 : 1 ≤ x0 ∧ x0 ≤ (size : Int) ∧ 1 ≤ y0 ∧ y0 ≤ (size : Int)
    · rw [if_pos hr0] at hpre
      rcases hpm0 : playMove s c0 ((x0 - 1).toNat, (y0 - 1).toNat) with ⟨s1, r0⟩
      rw [hpm0] at hpre
      cases r0 with
      | ok l =>
        rw [List.cons_append, gameToSamples_entry, if_pos hr0, hpm0, List.length_cons,
          gameToSamples_clean_len size pre rest c x y s1 s' err hpre hr hf,
          List.length_cons]
      | error e =>
        exact absurd hpre (by simp)
    · rw [if_neg hr0] at hpre
      exact absurd hpre (by simp)

/-- C5 (amended): when a recorded game consists of well-formed in-range
placements and `play_move` first fails at 0-based index `k`, the replayer
emits the sample of every move up to and including the failing one — the
sample of the failing move is yielded before `play_move` is attempted — so
the total sample count is `k + 1`, not `k`. -/
theorem illegal_move_stops_after_sample (size : Nat) (pre rest : List MoveEntry)
    (c : String) (x y : Int) (s s' : GoGameState) (err : MoveError)
    (hpre : runClean size s pre = some s')
    (hr : 1 ≤ x ∧ x ≤ (size : Int) ∧ 1 ≤ y ∧ y ≤ (size : Int))
    (hf : (playMove s' c ((x - 1).toNat, (y - 1).toNat)).2 = Except.error err) :
    (gameToSamples size s (pre ++ MoveEntry.entry c x y :: rest)).length
      = pre.length + 1 :=
  gameToSamples_clean_len size pre rest c x y s s' err hpre hr hf

/-- Counterexample to C5 as stated: in the two-move game where move 0 is legal
and move 1 plays the occupied point (the unique illegal move, at index 1), the
replayer yields 2 samples, not 1 — the illegal move's own sample is emitted
before `play_move` rejects it. -/
theorem illegal_move_sample_counterexample :
    (gameToSamples 2 (initState 2)
      [MoveEntry.entry ("B") 1 1, MoveEntry.entry ("W") 1 1]).length = 2 ∧
    (playMove (initState 2) "B" (0, 0)).2 = Except.ok [] ∧
    (playMove (playMove (initState 2) "B" (0, 0)).1 ("W") (0, 0)).2
      = Except.error MoveError.occupiedPoint :=
  ⟨by decide, rfl, rfl⟩

/-- The board after the witness game's first move. -/
def c5Mid : GoGameState := (playMove (initState 2) "B" (0, 0)).1

/-- Witness for the amended C5: one legal move, then an illegal one, gives
1 + 1 samples. -/
theorem illegal_move_stops_after_sample_witness :
    runClean 2 (initState 2) [MoveEntry.entry ("B") 1 1] = some c5Mid ∧
    (gameToSamples 2 (initState 2)
      ([MoveEntry.entry ("B") 1 1] ++ MoveEntry.entry ("W") 1 1 :: [])).length = 1 + 1 :=
  ⟨rfl,
   illegal_move_stops_after_sample 2 [MoveEntry.entry ("B") 1 1] [] "W" 1 1
     (initState 2) c5Mid MoveError.occupiedPoint rfl (by decide) rfl⟩

/-- The sharding the claim (and spec §4.3) describes for the compact format,
stated from the spec's words for comparison: worker `workerId` owns exactly
the lines whose index in the concatenation of all files, in file-list order,
is congruent to `workerId`. -/
def claimConcatOwned (files : List (List JsonLine)) (numWorkers workerId : Nat) :
    List JsonLine :=
  ((files.flatten.enum).filter (fun p => ownsGame numWorkers workerId p.1)).map
    (fun p => p.2)

/-- The two-file compact corpus of the C4 counterexample: each file holds one
single-move game; the two games have distinct action labels 0 and 1. -/
def c4Files : List (List JsonLine) :=
  [[JsonLine.game [MoveEntry.entry ("B") 1 1]],
   [JsonLine.game [MoveEntry.entry ("B") 2 1]]]

/-- Counterexample to C4 as stated: with two workers, the concatenated-stream
rule assigns the second file's game (concatenated line index 1) to worker 1,
and that game replays to one sample; but the code restarts `enumerate(fh)` at
0 for every file, so worker 1 yields nothing and worker 0 yields both games'
samples. -/
theorem sharding_index_counterexample :
    (compactDataset ⟨2, 0, none⟩ ("train") 1 2 c4Files).samples = [] ∧
    claimConcatOwned c4Files 2 1 = [JsonLine.game [MoveEntry.entry ("B") 2 1]] ∧
    (gameToSamples 2 (initState 2) [MoveEntry.entry ("B") 2 1]).length = 1 ∧
    (compactDataset ⟨2, 0, none⟩ ("train") 0 2 c4Files).samples.length = 2 :=
  ⟨rfl, rfl, by decide, by decide⟩

/-- The two-file SGF corpus used to exhibit the (correct) per-file-index
sharding of the SGF dataset. -/
def c4SgfFiles : List SgfFile :=
  [SgfFile.game 2 [SgfNode.pass, SgfNode.move ("B") 0 0],
   SgfFile.game 2 [SgfNode.pass, SgfNode.move ("B") 1 0]]

/-- C4 (amended): ownership of a game is `idx mod worker_count == worker_id`
where `idx` is the line number within each individual compact file
(`enumerate(fh)` restarts at 0 per file), and the file index within the file
list for the SGF format; for every index unit the workers' assigned sets are
pairwise disjoint and cover everything (each index is owned by exactly one
worker).  Concretely, two single-line compact files both go to worker 0 of 2,
while two SGF files are split one per worker. -/
theorem sharding_partition :
    (∀ (numWorkers workerId i : Nat),
      (ownsGame numWorkers workerId i = true ↔ i % numWorkers = workerId)) ∧
    (∀ (numWorkers i : Nat), 0 < numWorkers →
      ∃! w, w < numWorkers ∧ ownsGame numWorkers w i = true) ∧
    (compactDataset ⟨2, 0, none⟩ ("train") 0 2 c4Files).samples.length = 2 ∧
    (compactDataset ⟨2, 0, none⟩ ("train") 1 2 c4Files).samples.length = 0 ∧
    (sgfDataset ⟨2, 0, none⟩ ("train") 0 2 c4SgfFiles).samples.length = 1 ∧
    (sgfDataset ⟨2, 0, none⟩ ("train") 1 2 c4SgfFiles).samples.length = 1 := by
  refine ⟨?_, ?_, by decide, by decide, by decide, by decide⟩
  · intro numWorkers workerId i
    unfold ownsGame
    exact beq_iff_eq
  · intro numWorkers i h
    refine ⟨i % numWorkers, ⟨Nat.mod_lt i h, ?_⟩, ?_⟩
    · unfold ownsGame
      exact beq_iff_eq.mpr rfl
    · rintro w ⟨hw, hbeq⟩
      unfold ownsGame at hbeq
      exact (beq_iff_eq.mp hbeq).symm

/-- Witness for the amended C4: worker 3 of 4 owns index 7 iff 7 mod 4 = 3,
and exactly one of the four workers owns index 7. -/
theorem sharding_partition_witness :
    (ownsGame 4 3 7 = true ↔ 7 % 4 = 3) ∧
    (0 < 4) ∧ (∃! w, w < 4 ∧ ownsGame 4 w 7 = true) :=
  ⟨sharding_partition.1 4 3 7, by decide, sharding_partition.2.1 4 7 (by decide)⟩

/-- The compact corpus of the C6 analysis: one file whose first line fails
`json.loads` and whose second line is a valid one-move game. -/
def c6Files : List (List JsonLine) :=
  [[JsonLine.bad, JsonLine.game [MoveEntry.entry ("B") 1 1]]]

/-- The SGF corpus of the C6 analysis: one unreadable file followed by a valid
one-move game file. -/
def c6SgfFiles : List SgfFile :=
  [SgfFile.bad, SgfFile.game 2 [SgfNode.pass, SgfNode.move ("B") 0 0]]

/-- C6 evaluated at its failing input: in the compact dataset a malformed JSON
line makes `json.loads` raise `json.JSONDecodeError` — a `ValueError` raised
at datasets.py line 154, *outside* the `try`/`except ValueError` of lines
156-160 — so the exception escapes the generator, the valid game after it is
never reached, and zero samples are yielded; the SGF dataset, whose whole
per-file body is inside `try`/`except Exception`, recovers from the same
corruption and still yields the valid game's sample. -/
theorem malformed_record_propagates :
    (compactDataset ⟨2, 0, none⟩ ("train") 0 1 c6Files).samples = [] ∧
    (compactDataset ⟨2, 0, none⟩ ("train") 0 1 c6Files).exit = ExitKind.raised ∧
    (sgfDataset ⟨2, 0, none⟩ ("train") 0 1 c6SgfFiles).samples.length = 1 :=
  ⟨rfl, rfl, by decide⟩

lemma compactFileLoop_seen_bound (cfg : DatasetConfig) (mode : String)
    (wid nw n : Nat) (hlim : cfg.limitGames = some n) :
    ∀ (lines : List JsonLine) (gi seen : Nat), seen ≤ n →
      (compactFileLoop cfg mode wid nw lines gi seen).seen
        = seen + (compactFileLoop cfg mode wid nw lines gi seen).examined ∧
      (compactFileLoop cfg mode wid nw lines gi seen).seen ≤ n
  | [], _, seen, hseen => ⟨by simp [compactFileLoop], hseen⟩
  | line :: rest, gi, seen, hseen => by
    rw [compactFileLoop]
    cases hown : ownsGame nw wid gi with
    | false =>
      simp only [hown, Bool.false_eq_true, if_false]
      exact compactFileLoop_seen_bound cfg mode wid nw n hlim rest (gi + 1) seen hseen
    | true =>
      simp only [hown, if_true]
      cases hlimit : limitHit cfg.limitGames seen with
      | true =>
        simp only [hlimit, if_true]
        exact ⟨by simp, hseen⟩
      | false =>
        simp only [hlimit, Bool.false_eq_true, if_false]
        have hlt : seen < n := by
          unfold limitHit at hlimit
          rw [hlim] at hlimit
          simpa using hlimit
        have hseen1 : seen + 1 ≤ n := hlt
        cases hsel : selected cfg.valRatio mode gi with
        | false =>
          simp only [hsel, Bool.false_eq_true, if_false]
          have hrec := compactFileLoop_seen_bound cfg mode wid nw n hlim rest (gi + 1)
            (seen + 1) hseen1
          have h1 := hrec.1
          refine ⟨?_, ?_⟩
          · show (compactFileLoop cfg mode wid nw rest (gi + 1) (seen + 1)).seen
              = seen + ((compactFileLoop cfg mode wid nw rest (gi + 1) (seen + 1)).examined + 1)
            omega
          · show (compactFileLoop cfg mode wid nw rest (gi + 1) (seen + 1)).seen ≤ n
            exact hrec.2
        | true =>
          simp only [hsel, if_true]
          cases line with
          | blank =>
            have hrec := compactFileLoop_seen_bound cfg mode wid nw n hlim rest (gi + 1)
              (seen + 1) hseen1
            have h1 := hrec.1
            refine ⟨?_, ?_⟩
            · show (compactFileLoop cfg mode wid nw rest (gi + 1) (seen + 1)).seen
                = seen + ((compactFileLoop cfg mode wid nw rest (gi + 1) (seen + 1)).examined + 1)
              omega
            · show (compactFileLoop cfg mode wid nw rest (gi + 1) (seen + 1)).seen ≤ n
              exact hrec.2
          | bad =>
            exact ⟨by simp, hseen1⟩
          | game moves =>
            have hrec := compactFileLoop_seen_bound cfg mode wid nw n hlim rest (gi + 1)
              (seen + 1) hseen1
            have h1 := hrec.1
            refine ⟨?_, ?_⟩
            · show (compactFileLoop cfg mode wid nw rest (gi + 1) (seen + 1)).seen
                = seen + ((compactFileLoop cfg mode wid nw rest (gi + 1) (seen + 1)).examined + 1)
              omega
            · show (compactFileLoop cfg mode wid nw rest (gi + 1) (seen + 1)).seen ≤ n
              exact hrec.2

lemma compactRun_seen_bound (cfg : DatasetConfig) (mode : String)
    (wid nw n : Nat) (hlim : cfg.limitGames = some n) :
    ∀ (files : List (List JsonLine)) (seen : Nat), seen ≤ n →
      (compactRun cfg mode wid nw files seen).seen
        = seen + (compactRun cfg mode wid nw files seen).examined ∧
      (compactRun cfg mode wid nw files seen).seen ≤ n
  | [], seen, hseen => ⟨by simp [compactRun], hseen⟩
  | file :: rest, seen, hseen => by
    rw [compactRun]
    have hf := compactFileLoop_seen_bound cfg mode wid nw n hlim file 0 seen hseen
    have hf1 := hf.1
    have hf2 := hf.2
    cases hexit : (compactFileLoop cfg mode wid nw file 0 seen).exit with
    | normal =>
      simp only [hexit]
      have hrec := compactRun_seen_bound cfg mode wid nw n hlim rest
        (compactFileLoop cfg mode wid nw file 0 seen).seen hf2
      have hr1 := hrec.1
      refine ⟨?_, ?_⟩
      · show (compactRun cfg mode wid nw rest
            (compactFileLoop cfg mode wid nw file 0 seen).seen).seen
          = seen + ((compactFileLoop cfg mode wid nw file 0 seen).examined
            + (compactRun cfg mode wid nw rest
                (compactFileLoop cfg mode wid nw file 0 seen).seen).examined)
        omega
      · show (compactRun cfg mode wid nw rest
            (compactFileLoop cfg mode wid nw file 0 seen).seen).seen ≤ n
        exact hrec.2
    | limitStop =>
      simp only [hexit]
      exact ⟨hf1, hf2⟩
    | raised =>
      simp only [hexit]
      exact ⟨hf1, hf2⟩

/-- The SGF corpus of the C7 counterexample: the worker's first owned file is
unreadable (it does not count toward `games_seen`), the second is a valid
one-move game. -/
def c7SgfFiles : List SgfFile :=
  [SgfFile.bad, SgfFile.game 2 [SgfNode.pass, SgfNode.move ("B") 0 0]]

/-- Counterexample to C7 as stated: with `limit_games = 1`, the SGF worker
examines two games — the unreadable first file passes the cap check but never
increments `games_seen` (datasets_sgf.py line 97 runs only after a successful
replay), so the cap does not stop the worker after one examined game and the
second file is still replayed. -/
theorem limit_games_counterexample :
    ((⟨2, 0, some 1⟩ : DatasetConfig).limitGames = some 1) ∧
    (sgfDataset ⟨2, 0, some 1⟩ ("train") 0 1 c7SgfFiles).examined = 2 ∧
    ¬((sgfDataset ⟨2, 0, some 1⟩ ("train") 0 1 c7SgfFiles).examined ≤ 1) ∧
    (sgfDataset ⟨2, 0, some 1⟩ ("train") 0 1 c7SgfFiles).samples.length = 1 :=
  ⟨rfl, by decide, by decide, by decide⟩

/-- The compact corpus for the C7 witness: one file with two one-move games. -/
def c7CompactFiles : List (List JsonLine) :=
  [[JsonLine.game [MoveEntry.entry ("B") 1 1], JsonLine.game [MoveEntry.entry ("B") 2 1]]]

/-- C7 (amended): in the compact dataset `games_seen` is incremented for every
owned game that passes the cap check — before split filtering, independent of
validity — so each worker examines at most `limit_games` games; in the SGF
dataset `games_seen` is incremented only after a game is selected, parsed,
size-matched and fully replayed, so unselected or invalid games do not count
toward the cap and a worker can examine more games than the cap (here: two
games examined, final `games_seen` 1, with `limit_games = 1`). -/
theorem limit_games_cap :
    (∀ (cfg : DatasetConfig) (mode : String) (wid nw : Nat)
       (files : List (List JsonLine)) (n : Nat), cfg.limitGames = some n →
       (compactDataset cfg mode wid nw files).examined ≤ n) ∧
    (sgfDataset ⟨2, 0, some 1⟩ ("train") 0 1 c7SgfFiles).examined = 2 ∧
    (sgfDataset ⟨2, 0, some 1⟩ ("train") 0 1 c7SgfFiles).seen = 1 := by
  refine ⟨?_, by decide, by decide⟩
  intro cfg mode wid nw files n hlim
  have h := compactRun_seen_bound cfg mode wid nw n hlim files 0 (Nat.zero_le n)
  have h1 := h.1
  have h2 := h.2
  unfold compactDataset
  omega

/-- Witness for the amended C7: a compact worker with `limit_games = 1`
examines at most one of the two games. -/
theorem limit_games_cap_witness :
    (compactDataset ⟨2, 0, some 1⟩ ("train") 0 1 c7CompactFiles).examined ≤ 1 :=
  limit_games_cap.1 ⟨2, 0, some 1⟩ ("train") 0 1 c7CompactFiles 1 rfl
